import Mathlib

/-!
Shallow embedding of the algorithmic core of the curate-gpt repository:

* `src/curate_gpt/utils/metrics.py` — classification outcomes, metric
  computation (`calculate_metrics`), prediction comparison
  (`evaluate_predictions`) and metric aggregation (`aggregate_metrics`);
* `src/curate_gpt/agents/cde2ontology_agent.py` — the clinical-concept
  best-match grounding loop (`find_best_matching_terms`);
* the stratified collection splitter invoked from `src/curate_gpt/cli.py`
  (`stratify_collection`), whose module is not part of the provided sources
  and is therefore modelled from the specification.

Python floats are embedded as rationals (all arithmetic in scope is exact on
the inputs of interest), fallible Python division is embedded in the
`Except` monad, and Python `None`-able results as `Option`.
-/

namespace CurateGpt

/-- Embeds `ClassificationOutcome` from `metrics.py`. -/
inductive ClassificationOutcome
  | TRUE_POSITIVE
  | TRUE_NEGATIVE
  | FALSE_POSITIVE
  | FALSE_NEGATIVE
deriving DecidableEq, Repr

/-- Embeds `AggregationMethod` from `metrics.py`. -/
inductive AggregationMethod
  | MACRO
  | MICRO
  | WEIGHTED
deriving DecidableEq, Repr

/-- Embeds the pydantic model `ClassificationMetrics` from `metrics.py`. -/
structure ClassificationMetrics where
  precision : ℚ
  «recall» : ℚ
  f1_score : ℚ
  accuracy : ℚ
  specificity : ℚ
deriving DecidableEq, Repr

/-- Runtime errors the embedded Python code can raise. -/
inductive PyError
  | zeroDivisionError
deriving DecidableEq, Repr

/-- Decidable equality of fallible results, for concrete evaluation. -/
instance {ε α : Type} [DecidableEq ε] [DecidableEq α] :
    DecidableEq (Except ε α) := fun a b =>
  match a, b with
  | .error e, .error e' =>
      if h : e = e' then .isTrue (by rw [h]) else .isFalse (by simp [h])
  | .error _, .ok _ => .isFalse (by simp)
  | .ok _, .error _ => .isFalse (by simp)
  | .ok v, .ok v' =>
      if h : v = v' then .isTrue (by rw [h]) else .isFalse (by simp [h])

/-- Python `/` on numbers: raises `ZeroDivisionError` on a zero denominator. -/
def pyDiv (a b : ℚ) : Except PyError ℚ :=
  if b = 0 then .error .zeroDivisionError else .ok (a / b)

/-- An element of the `outcomes` argument of `calculate_metrics`: either a
bare `ClassificationOutcome` or an `(outcome, detail)` tuple. -/
inductive OutcomeItem
  | plain (o : ClassificationOutcome)
  | withDetail (o : ClassificationOutcome) (detail : String)
deriving DecidableEq, Repr

/-- The unwrapping `outcome if isinstance(outcome, ClassificationOutcome)
else outcome[0]` in `calculate_metrics`. -/
def OutcomeItem.outcome : OutcomeItem → ClassificationOutcome
  | .plain o => o
  | .withDetail o _ => o

/-- The Python conditional expression `a / b if b > 0 else 0` used for every
metric in `calculate_metrics`: the division only happens when the
denominator is positive. -/
def guardedDiv (a b : ℚ) : Except PyError ℚ :=
  if b > 0 then pyDiv a b else pure 0

/-- Embeds `calculate_metrics` from `metrics.py` (lines 29-50): unwrap
tuples, count the four outcome kinds, and compute the five metrics with each
division guarded by a positivity test on its denominator. -/
def calculate_metrics (outcomes : List OutcomeItem) :
    Except PyError ClassificationMetrics := do
  let outs := outcomes.map OutcomeItem.outcome
  let tp : ℚ := outs.count .TRUE_POSITIVE
  let tn : ℚ := outs.count .TRUE_NEGATIVE
  let fp : ℚ := outs.count .FALSE_POSITIVE
  let fn : ℚ := outs.count .FALSE_NEGATIVE
  let precision ← guardedDiv tp (tp + fp)
  let «recall» ← guardedDiv tp (tp + fn)
  let f1 ← guardedDiv (2 * (precision * «recall»)) (precision + «recall»)
  let accuracy ← guardedDiv (tp + tn) (tp + tn + fp + fn)
  let specificity ← guardedDiv tn (tn + fp)
  return { precision := precision, «recall» := «recall», f1_score := f1,
           accuracy := accuracy, specificity := specificity }

/-- A Python generator-expression sum `sum(f(m) for m in ms)`. -/
def sumBy (ms : List ClassificationMetrics) (f : ClassificationMetrics → ℚ) : ℚ :=
  (ms.map f).sum

/-- The per-run weight used by the WEIGHTED aggregation: the sum of the
run's own five metric values. -/
def metricWeight (m : ClassificationMetrics) : ℚ :=
  m.precision + m.«recall» + m.f1_score + m.accuracy + m.specificity

/-- Embeds `aggregate_metrics` from `metrics.py` (lines 79-144).  The MACRO
branch divides each summed metric by `len(metrics_list)`; the MICRO and
WEIGHTED branches divide by algebraically derived totals.  None of these
divisions is guarded in the source, so they go through `pyDiv`. -/
def aggregate_metrics (metrics_list : List ClassificationMetrics)
    (method : AggregationMethod) : Except PyError ClassificationMetrics :=
  match method with
  | .MACRO => do
      let n : ℚ := metrics_list.length
      let precision ← pyDiv (sumBy metrics_list (fun m => m.precision)) n
      let «recall» ← pyDiv (sumBy metrics_list (fun m => m.«recall»)) n
      let f1_score ← pyDiv (sumBy metrics_list (fun m => m.f1_score)) n
      let accuracy ← pyDiv (sumBy metrics_list (fun m => m.accuracy)) n
      let specificity ← pyDiv (sumBy metrics_list (fun m => m.specificity)) n
      return { precision := precision, «recall» := «recall», f1_score := f1_score,
               accuracy := accuracy, specificity := specificity }
  | .MICRO => do
      let total_tp := sumBy metrics_list
        (fun m => m.precision * (m.«recall» * (m.precision + m.f1_score)))
      let total_fp := sumBy metrics_list
        (fun m => m.f1_score - m.precision * m.«recall»)
      let total_fn := sumBy metrics_list
        (fun m => (1 - m.«recall») * (m.precision + m.f1_score))
      let total_tn := sumBy metrics_list
        (fun m => m.accuracy * (m.precision + m.«recall» + m.f1_score + 1)
          - total_tp - total_fp - total_fn)
      let precision ← pyDiv total_tp (total_tp + total_fp)
      let «recall» ← pyDiv total_tp (total_tp + total_fn)
      let f1_score ← pyDiv (2 * (precision * «recall»)) (precision + «recall»)
      let accuracy ← pyDiv (total_tp + total_tn)
        (total_tp + total_tn + total_fp + total_fn)
      let specificity ← pyDiv total_tn (total_tn + total_fp)
      return { precision := precision, «recall» := «recall», f1_score := f1_score,
               accuracy := accuracy, specificity := specificity }
  | .WEIGHTED => do
      let total_weight := sumBy metrics_list metricWeight
      let precision ← pyDiv
        (sumBy metrics_list (fun m => m.precision * metricWeight m)) total_weight
      let «recall» ← pyDiv
        (sumBy metrics_list (fun m => m.«recall» * metricWeight m)) total_weight
      let f1_score ← pyDiv
        (sumBy metrics_list (fun m => m.f1_score * metricWeight m)) total_weight
      let accuracy ← pyDiv
        (sumBy metrics_list (fun m => m.accuracy * metricWeight m)) total_weight
      let specificity ← pyDiv
        (sumBy metrics_list (fun m => m.specificity * metricWeight m)) total_weight
      return { precision := precision, «recall» := «recall», f1_score := f1_score,
               accuracy := accuracy, specificity := specificity }

/-- The Python values `evaluate_predictions` is exercised on: strings,
integers, and (possibly nested) lists of such values. -/
inductive PyObj
  | pstr (s : String)
  | pint (n : Int)
  | plist (xs : List PyObj)

mutual
/-- The lines of `yaml.safe_dump(x, sort_keys=True)` modelled for the value
types in scope: block-style sequences with `- ` item markers and two-space
continuation indent; scalar-quoting corner cases are not modelled. -/
def dumpLines : PyObj → List String
  | .pstr s => [s]
  | .pint n => [toString n]
  | .plist [] => ["[]"]
  | .plist (x :: xs) => dumpItems (x :: xs)

/-- The block-sequence items of a YAML dump, one `- `-marked entry per
list element. -/
def dumpItems : List PyObj → List String
  | [] => []
  | x :: xs =>
    (match dumpLines x with
     | [] => []
     | l :: ls => ("- " ++ l) :: ls.map (fun y => "  " ++ y)) ++ dumpItems xs
end

/-- `yaml.safe_dump` as used by `_normalize`: the dumped lines joined with
newlines, with a trailing newline. -/
def safe_dump (x : PyObj) : String :=
  String.intercalate "\n" (dumpLines x) ++ "\n"

/-- Embeds `_normalize` from `metrics.py` (lines 53-61): strings pass
through, lists are YAML-serialized, anything else is `str(obj)`. -/
def _normalize : PyObj → String
  | .pstr s => s
  | .plist xs => safe_dump (.plist xs)
  | .pint n => toString n

/-- A Python set of strings, represented canonically as the input order
with later duplicates removed. -/
def dedupFirst : List String → List String
  | [] => []
  | x :: xs => x :: (dedupFirst xs).filter (fun y => decide (y ≠ x))

/-- `set1.union(set2)`, enumerated canonically: the elements of `set1`
followed by the elements of `set2` not already present. -/
def unionList (s1 s2 : List String) : List String :=
  s1 ++ s2.filter (fun x => decide (x ∉ s1))

/-- The body of the `for x in set1.union(set2)` loop in
`evaluate_predictions`: classify one normalized element.  The detail string
carries the element itself (the surrounding f-string decoration of the
source is dropped). -/
def classify (set1 set2 : List String) (x : String) :
    ClassificationOutcome × String :=
  if x ∉ set1 then (.FALSE_NEGATIVE, x)
  else if x ∉ set2 then (.FALSE_POSITIVE, x)
  else (.TRUE_POSITIVE, x)

/-- The list-against-list branch of `evaluate_predictions`: normalize both
lists to sets and classify every element of their union. -/
def evalLists (obj1 obj2 : List PyObj) : List (ClassificationOutcome × String) :=
  let set1 := dedupFirst (obj1.map _normalize)
  let set2 := dedupFirst (obj2.map _normalize)
  (unionList set1 set2).map (classify set1 set2)

/-- Embeds `evaluate_predictions` from `metrics.py` (lines 64-76).  When
both arguments are lists they are compared setwise; otherwise the call
recurses once on `([obj1], [obj2])`, which lands in the list branch. -/
def evaluate_predictions : PyObj → PyObj → List (ClassificationOutcome × String)
  | .plist xs, .plist ys => evalLists xs ys
  | .plist xs, y => evalLists [.plist xs] [y]
  | x, .plist ys => evalLists [x] [.plist ys]
  | x, y => evalLists [x] [y]

/-- Spec-side helper: the number of occurrences of the outcome pair `p` in
an outcome list. -/
def countPair (l : List (ClassificationOutcome × String))
    (p : ClassificationOutcome × String) : ℕ :=
  l.countP (fun q => decide (q = p))

/-- The error the specification assigns to a failed external search or
grounding call (spec section 7); the concept matcher propagates it. -/
structure MatchingServiceError where
  msg : String
deriving DecidableEq, Repr

/-- A candidate mapping returned by `mapping_agent.match`; only the
`object_id` field is consumed by the matcher. -/
structure Mapping where
  object_id : String
deriving DecidableEq, Repr

/-- The result object of `mapping_agent.match`, with its `mappings` list. -/
structure Mappings where
  mappings : List Mapping
deriving DecidableEq, Repr

/-- The response of `concept_recognition_agent.ground_concept`; only its
`score` is consumed. -/
structure GroundingResponse where
  score : ℚ
deriving DecidableEq, Repr

/-- The `for mapping in mappings.mappings` loop of
`ClinicalConceptMatcher.find_best_matching_terms`
(`cde2ontology_agent.py` lines 15-20), carrying the running `best_match`
and `best_score`; each grounding call may fail, and a candidate replaces
the incumbent only when `response.score > best_score`. -/
def findBestLoop (clinical_variable : String)
    (ground_concept : String → Except MatchingServiceError GroundingResponse) :
    List Mapping → Option String → ℚ → Except MatchingServiceError (Option String)
  | [], best_match, _ => .ok best_match
  | mapping :: rest, best_match, best_score => do
      let response ← ground_concept (clinical_variable ++ " // " ++ mapping.object_id)
      if best_score < response.score then
        findBestLoop clinical_variable ground_concept rest
          (some mapping.object_id) response.score
      else
        findBestLoop clinical_variable ground_concept rest best_match best_score

/-- Embeds `ClinicalConceptMatcher.find_best_matching_terms`
(`cde2ontology_agent.py` lines 10-22).  The external
`mapping_agent.match(clinical_variable, limit=10)` call is embedded as the
already-delivered `match_result`, and `ground_concept` as a function that
may fail; `best_match` starts as `None` and `best_score` as `0`. -/
def find_best_matching_terms (clinical_variable : String)
    (match_result : Except MatchingServiceError Mappings)
    (ground_concept : String → Except MatchingServiceError GroundingResponse) :
    Except MatchingServiceError (Option String) := do
  let mappings ← match_result
  findBestLoop clinical_variable ground_concept mappings.mappings none 0

/-- An infallible grounding service scoring each composite text by `f`. -/
def groundOf (f : String → ℚ) :
    String → Except MatchingServiceError GroundingResponse :=
  fun s => .ok ⟨f s⟩

/-- A record of a collection, reduced to what the splitter inspects: its
identifier and the names of the fields it possesses. -/
structure Record where
  rid : String
  fields : List String
deriving DecidableEq, Repr

/-- The three derived sets produced by the splitter
(`evaluation_datamodel.StratifiedCollection`). -/
structure StratifiedCollection where
  training_set : List Record
  testing_set : List Record
  validation_set : List Record
deriving DecidableEq, Repr

/-- The failure the specification assigns to an unsatisfiable split request
(spec section 7, `InsufficientDataError`). -/
inductive SplitError
  | insufficientData
deriving DecidableEq, Repr

/-- Whether a record possesses every field in `fields_to_predict`. -/
def hasAllFields (fields_to_predict : List String) (r : Record) : Bool :=
  fields_to_predict.all (fun f => decide (f ∈ r.fields))

/-- Truncation of the training set to `num_training` when given. -/
def truncateTo : Option ℕ → List Record → List Record
  | none, l => l
  | some n, l => l.take n

/-- The requested testing count of spec section 4.1 step 3: `num_testing`
when given, else `floor(len(eligible) * ratio)` when a ratio is given, else
`0`. -/
def testingCount (num_testing : Option ℕ) ( ratio : Option ℚ)
    (eligibleLen : ℕ) : ℕ :=
  match num_testing, ratio with
  | some n, _ => n
  | none, some q => (⌊(eligibleLen : ℚ) * q⌋).toNat
  | none, none => 0

/-- Modelled from the spec: `stratify_collection`
(`curate_gpt/evaluation/splitter.py`), which is called from
`cli.py:split_collection` but whose module is not among the provided
sources; this definition follows the algorithm of spec section 4.1.
Partition the collection into `eligible` (has all fields to predict) and
`ineligible`; when `testing_identifiers` is given the testing set is the
records with those identifiers and they leave the pool for the other sets,
otherwise the testing count comes from `num_testing`, or else from
`floor(len(eligible) * ratio)`, or else is `0`, and testing then validation
are drawn from `eligible` in source order; the remaining eligible records
plus the ineligible ones form the training set, truncated to
`num_training` when given; the split fails with `InsufficientDataError`
when the eligible pool cannot supply the requested testing and validation
counts. -/
def stratify_collection (collection : List Record)
    (fields_to_predict : List String) (num_training num_testing : Option ℕ)
    (num_validation : ℕ) (ratio : Option ℚ)
    (testing_identifiers : Option (List String)) :
    Except SplitError StratifiedCollection :=
  let eligible := collection.filter (hasAllFields fields_to_predict)
  let ineligible := collection.filter (fun r => !hasAllFields fields_to_predict r)
  match testing_identifiers with
  | some ids =>
      let testing := collection.filter (fun r => decide (r.rid ∈ ids))
      let eligible' := eligible.filter (fun r => decide (r.rid ∉ ids))
      let ineligible' := ineligible.filter (fun r => decide (r.rid ∉ ids))
      if eligible'.length < num_validation then .error .insufficientData
      else
        let validation := eligible'.take num_validation
        let rest := eligible'.drop num_validation
        .ok ⟨truncateTo num_training (rest ++ ineligible'), testing, validation⟩
  | none =>
      let num_test := testingCount num_testing ratio eligible.length
      if eligible.length < num_test + num_validation then .error .insufficientData
      else
        let testing := eligible.take num_test
        let validation := (eligible.drop num_test).take num_validation
        let rest := (eligible.drop num_test).drop num_validation
        .ok ⟨truncateTo num_training (rest ++ ineligible), testing, validation⟩

/-- Spec-side helper: how many unwrapped outcomes of a list equal `o`. -/
def outcomeCount (outcomes : List OutcomeItem) (o : ClassificationOutcome) : ℕ :=
  (outcomes.map OutcomeItem.outcome).count o

/-! ### Helper lemmas about the metric computations -/

theorem pyDiv_ok (a b : ℚ) (h : b ≠ 0) : pyDiv a b = .ok (a / b) := by
  simp [pyDiv, h]

theorem guardedDiv_eq (a b : ℚ) :
    guardedDiv a b = Except.ok (if b > 0 then a / b else 0) := by
  unfold guardedDiv
  split_ifs with h
  · exact pyDiv_ok a b (ne_of_gt h)
  · rfl

theorem exceptBind_ok {ε α β : Type} (a : α) (f : α → Except ε β) :
    (bind (Except.ok a) f : Except ε β) = f a := rfl

theorem exceptPure_eq {ε α : Type} (a : α) : (pure a : Except ε α) = .ok a := rfl

theorem exceptBind_error {ε α β : Type} (e : ε) (f : α → Except ε β) :
    (bind (Except.error e) f : Except ε β) = .error e := rfl

theorem calculate_metrics_eq (outcomes : List OutcomeItem) :
    calculate_metrics outcomes =
      .ok (let tp : ℚ := outcomeCount outcomes .TRUE_POSITIVE
           let tn : ℚ := outcomeCount outcomes .TRUE_NEGATIVE
           let fp : ℚ := outcomeCount outcomes .FALSE_POSITIVE
           let fn : ℚ := outcomeCount outcomes .FALSE_NEGATIVE
           let p : ℚ := if tp + fp > 0 then tp / (tp + fp) else 0
           let r : ℚ := if tp + fn > 0 then tp / (tp + fn) else 0
           { precision := p,
             «recall» := r,
             f1_score := if p + r > 0 then 2 * (p * r) / (p + r) else 0,
             accuracy := if tp + tn + fp + fn > 0 then
                 (tp + tn) / (tp + tn + fp + fn) else 0,
             specificity := if tn + fp > 0 then tn / (tn + fp) else 0 }) := by
  simp only [calculate_metrics, outcomeCount, guardedDiv_eq, exceptBind_ok, exceptPure_eq]

/-! ### Claim theorems about `calculate_metrics` and `aggregate_metrics` -/

/-- Claim C2, counterexample: on the outcome list `[TP, TP, TN, FP, FN]` the
claimed result (specificity `0`) is not what `calculate_metrics` returns. -/
theorem calculate_metrics_example_specificity_refuted :
    calculate_metrics [.plain .TRUE_POSITIVE, .plain .TRUE_POSITIVE,
        .plain .TRUE_NEGATIVE, .plain .FALSE_POSITIVE, .plain .FALSE_NEGATIVE] ≠
      .ok ⟨2/3, 2/3, 2/3, 3/5, 0⟩ := by
  have h1 : outcomeCount [.plain .TRUE_POSITIVE, .plain .TRUE_POSITIVE,
      .plain .TRUE_NEGATIVE, .plain .FALSE_POSITIVE, .plain .FALSE_NEGATIVE]
      .TRUE_POSITIVE = 2 := by decide
  have h2 : outcomeCount [.plain .TRUE_POSITIVE, .plain .TRUE_POSITIVE,
      .plain .TRUE_NEGATIVE, .plain .FALSE_POSITIVE, .plain .FALSE_NEGATIVE]
      .TRUE_NEGATIVE = 1 := by decide
  have h3 : outcomeCount [.plain .TRUE_POSITIVE, .plain .TRUE_POSITIVE,
      .plain .TRUE_NEGATIVE, .plain .FALSE_POSITIVE, .plain .FALSE_NEGATIVE]
      .FALSE_POSITIVE = 1 := by decide
  have h4 : outcomeCount [.plain .TRUE_POSITIVE, .plain .TRUE_POSITIVE,
      .plain .TRUE_NEGATIVE, .plain .FALSE_POSITIVE, .plain .FALSE_NEGATIVE]
      .FALSE_NEGATIVE = 1 := by decide
  rw [calculate_metrics_eq]
  simp only [h1, h2, h3, h4]
  norm_num

/-- Claim C2 (amended): `calculate_metrics` unwraps `(outcome, detail)`
tuples, counts the four outcome kinds, and returns the five metrics, each
division yielding `0` when its denominator is `0`; on `[TP, TP, TN, FP, FN]`
it yields precision `2/3`, recall `2/3`, f1 `2/3`, accuracy `3/5` and
specificity `1/2` (not `0`). -/
theorem calculate_metrics_formulas_and_example :
    (∀ outcomes : List OutcomeItem,
      calculate_metrics outcomes =
        .ok (let tp : ℚ := outcomeCount outcomes .TRUE_POSITIVE
             let tn : ℚ := outcomeCount outcomes .TRUE_NEGATIVE
             let fp : ℚ := outcomeCount outcomes .FALSE_POSITIVE
             let fn : ℚ := outcomeCount outcomes .FALSE_NEGATIVE
             let p : ℚ := if tp + fp > 0 then tp / (tp + fp) else 0
             let r : ℚ := if tp + fn > 0 then tp / (tp + fn) else 0
             { precision := p,
               «recall» := r,
               f1_score := if p + r > 0 then 2 * (p * r) / (p + r) else 0,
               accuracy := if tp + tn + fp + fn > 0 then
                   (tp + tn) / (tp + tn + fp + fn) else 0,
               specificity := if tn + fp > 0 then tn / (tn + fp) else 0 })) ∧
    calculate_metrics [.plain .TRUE_POSITIVE, .plain .TRUE_POSITIVE,
        .plain .TRUE_NEGATIVE, .plain .FALSE_POSITIVE, .plain .FALSE_NEGATIVE] =
      .ok ⟨2/3, 2/3, 2/3, 3/5, 1/2⟩ :=
  ⟨calculate_metrics_eq, by
    have h1 : outcomeCount [.plain .TRUE_POSITIVE, .plain .TRUE_POSITIVE,
        .plain .TRUE_NEGATIVE, .plain .FALSE_POSITIVE, .plain .FALSE_NEGATIVE]
        .TRUE_POSITIVE = 2 := by decide
    have h2 : outcomeCount [.plain .TRUE_POSITIVE, .plain .TRUE_POSITIVE,
        .plain .TRUE_NEGATIVE, .plain .FALSE_POSITIVE, .plain .FALSE_NEGATIVE]
        .TRUE_NEGATIVE = 1 := by decide
    have h3 : outcomeCount [.plain .TRUE_POSITIVE, .plain .TRUE_POSITIVE,
        .plain .TRUE_NEGATIVE, .plain .FALSE_POSITIVE, .plain .FALSE_NEGATIVE]
        .FALSE_POSITIVE = 1 := by decide
    have h4 : outcomeCount [.plain .TRUE_POSITIVE, .plain .TRUE_POSITIVE,
        .plain .TRUE_NEGATIVE, .plain .FALSE_POSITIVE, .plain .FALSE_NEGATIVE]
        .FALSE_NEGATIVE = 1 := by decide
    rw [calculate_metrics_eq]
    simp only [h1, h2, h3, h4]
    norm_num⟩

/-- Claim C4, counterexample: `aggregate_metrics` does raise a division
error on metrics whose values lie in `[0, 1]` — the MICRO method on a
single all-zero metrics record divides by the zero total `tp + fp`, and the
MACRO method on the empty list divides by the zero length. -/
theorem aggregate_metrics_zero_division_raises :
    aggregate_metrics [⟨0, 0, 0, 0, 0⟩] .MICRO = .error .zeroDivisionError ∧
    aggregate_metrics [] .MACRO = .error .zeroDivisionError := by
  constructor
  · simp only [aggregate_metrics, sumBy, List.map_cons, List.map_nil,
      List.sum_cons, List.sum_nil]
    norm_num [pyDiv, exceptBind_error]
  · simp only [aggregate_metrics, sumBy, List.map_nil, List.sum_nil,
      List.length_nil]
    norm_num [pyDiv, exceptBind_error]

/-- Claim C4 (amended): every division performed by `calculate_metrics` is
guarded, so it never raises and treats a zero denominator as yielding `0`;
in particular on the empty outcome list it returns all five metrics equal
to `0`.  (`aggregate_metrics`, by contrast, divides by unguarded totals and
can raise a division error even on metrics with values in `[0, 1]`.) -/
theorem calculate_metrics_total_and_empty :
    (∀ outcomes : List OutcomeItem, ∃ m, calculate_metrics outcomes = .ok m) ∧
    calculate_metrics [] = .ok ⟨0, 0, 0, 0, 0⟩ :=
  ⟨fun outcomes => ⟨_, calculate_metrics_eq outcomes⟩, by
    rw [calculate_metrics_eq]
    simp [outcomeCount]⟩

/-- Claim C8: the MACRO aggregation of a non-empty metrics list is the
arithmetic mean of each of the five metrics, and on a single-element list
`[m]` it returns `m` unchanged. -/
theorem aggregate_metrics_macro_mean :
    (∀ ms : List ClassificationMetrics, ms ≠ [] →
      aggregate_metrics ms .MACRO =
        .ok { precision := sumBy ms (fun m => m.precision) / (ms.length : ℚ),
              «recall» := sumBy ms (fun m => m.«recall») / (ms.length : ℚ),
              f1_score := sumBy ms (fun m => m.f1_score) / (ms.length : ℚ),
              accuracy := sumBy ms (fun m => m.accuracy) / (ms.length : ℚ),
              specificity := sumBy ms (fun m => m.specificity) / (ms.length : ℚ) }) ∧
    (∀ m : ClassificationMetrics, aggregate_metrics [m] .MACRO = .ok m) := by
  have hmean : ∀ ms : List ClassificationMetrics, ms ≠ [] →
      aggregate_metrics ms .MACRO =
        .ok { precision := sumBy ms (fun m => m.precision) / (ms.length : ℚ),
              «recall» := sumBy ms (fun m => m.«recall») / (ms.length : ℚ),
              f1_score := sumBy ms (fun m => m.f1_score) / (ms.length : ℚ),
              accuracy := sumBy ms (fun m => m.accuracy) / (ms.length : ℚ),
              specificity := sumBy ms (fun m => m.specificity) / (ms.length : ℚ) } := by
    intro ms hne
    have hlen : ((ms.length : ℚ)) ≠ 0 := by
      exact_mod_cast (List.length_pos.mpr hne).ne'
    simp only [aggregate_metrics, pyDiv_ok _ _ hlen, exceptBind_ok, exceptPure_eq]
  refine ⟨hmean, fun m => ?_⟩
  have h := hmean [m] (by simp)
  simpa [sumBy] using h

/-- Witness for the non-emptiness hypothesis of
`aggregate_metrics_macro_mean`, at the single all-one metrics record. -/
theorem aggregate_metrics_macro_mean_witness :
    ([(⟨1, 1, 1, 1, 1⟩ : ClassificationMetrics)] ≠ []) ∧
    aggregate_metrics [⟨1, 1, 1, 1, 1⟩] .MACRO = .ok ⟨1, 1, 1, 1, 1⟩ :=
  ⟨by simp, aggregate_metrics_macro_mean.2 ⟨1, 1, 1, 1, 1⟩⟩

/-! ### Helper lemmas and claim theorems about the concept matcher -/

theorem findBestLoop_of_le (cv : String) (f : String → ℚ) (l : List Mapping)
    (best : Option String) (bs : ℚ)
    (h : ∀ m ∈ l, f (cv ++ " // " ++ m.object_id) ≤ bs) :
    findBestLoop cv (groundOf f) l best bs = .ok best := by
  induction l with
  | nil => rfl
  | cons m rest ih =>
    have hm : ¬ bs < f (cv ++ " // " ++ m.object_id) :=
      not_lt.mpr (h m (List.mem_cons_self m rest))
    simp only [findBestLoop, groundOf, exceptBind_ok, hm, if_false]
    exact ih (fun m' hm' => h m' (List.mem_cons_of_mem m hm'))

theorem findBestLoop_ok_forall (cv : String)
    (g : String → Except MatchingServiceError GroundingResponse)
    (l : List Mapping) (best : Option String) (bs : ℚ) (v : Option String)
    (h : findBestLoop cv g l best bs = .ok v) :
    ∀ m ∈ l, ∃ r, g (cv ++ " // " ++ m.object_id) = .ok r := by
  induction l generalizing best bs with
  | nil => intro m hm; cases hm
  | cons m rest ih =>
    intro m' hm'
    rw [findBestLoop] at h
    cases hg : g (cv ++ " // " ++ m.object_id) with
    | error e => rw [hg, exceptBind_error] at h; cases h
    | ok r =>
      rw [hg, exceptBind_ok] at h
      rcases List.mem_cons.mp hm' with hm' | hm'
      · exact ⟨r, hm' ▸ hg⟩
      · by_cases hlt : bs < r.score
        · rw [if_pos hlt] at h
          exact ih _ _ h m' hm'
        · rw [if_neg hlt] at h
          exact ih _ _ h m' hm'

/-- Claim C3: `find_best_matching_terms` keeps a running maximum starting
at `0` and a candidate replaces the incumbent only when its score is
strictly greater, so on two equal-scoring top candidates the earlier-ranked
one wins; candidates scored `[0.2, 0.9, 0.5]` in rank order yield the id of
the `0.9`-scoring candidate; an all-zero-scoring candidate list, or an
empty one, yields `None`. -/
theorem find_best_matching_terms_selection :
    (∀ (f : String → ℚ) (cv : String) (m₁ m₂ : Mapping) (l : List Mapping) (s : ℚ),
      0 < s →
      f (cv ++ " // " ++ m₁.object_id) = s →
      f (cv ++ " // " ++ m₂.object_id) = s →
      (∀ m ∈ l, f (cv ++ " // " ++ m.object_id) ≤ s) →
      find_best_matching_terms cv (.ok ⟨m₁ :: m₂ :: l⟩) (groundOf f) =
        .ok (some m₁.object_id)) ∧
    (∀ (f : String → ℚ) (cv : String) (maps : List Mapping),
      (∀ m ∈ maps, f (cv ++ " // " ++ m.object_id) = 0) →
      find_best_matching_terms cv (.ok ⟨maps⟩) (groundOf f) = .ok none) ∧
    (∀ (f : String → ℚ) (cv : String),
      find_best_matching_terms cv (.ok ⟨[]⟩) (groundOf f) = .ok none) ∧
    find_best_matching_terms "v" (.ok ⟨[⟨"A:1"⟩, ⟨"A:2"⟩, ⟨"A:3"⟩]⟩)
        (groundOf (fun s => if s = "v // A:2" then 9/10 else
          if s = "v // A:1" then 2/10 else if s = "v // A:3" then 5/10 else 0)) =
      .ok (some "A:2") := by
  refine ⟨?_, ?_, ?_, ?_⟩
  · intro f cv m₁ m₂ l s hs h₁ h₂ hl
    rw [find_best_matching_terms, exceptBind_ok, findBestLoop, groundOf,
      exceptBind_ok]
    simp only [h₁, if_pos hs]
    rw [findBestLoop, groundOf, exceptBind_ok]
    simp only [h₂, lt_self_iff_false, if_false]
    exact findBestLoop_of_le cv f l (some m₁.object_id) s hl
  · intro f cv maps hz
    rw [find_best_matching_terms, exceptBind_ok]
    exact findBestLoop_of_le cv f maps none 0 (fun m hm => le_of_eq (hz m hm))
  · intro f cv
    rfl
  · simp only [find_best_matching_terms, exceptBind_ok, findBestLoop, groundOf,
      String.reduceAppend, String.reduceEq, reduceIte]
    norm_num

/-- Witness for `find_best_matching_terms_selection`: its tie-breaking part
applied to two candidates both scoring `1`. -/
theorem find_best_matching_terms_selection_witness :
    find_best_matching_terms "x" (.ok ⟨[⟨"i"⟩, ⟨"j"⟩]⟩)
        (groundOf (fun _ => 1)) = .ok (some "i") :=
  find_best_matching_terms_selection.1 (fun _ => 1) "x" ⟨"i"⟩ ⟨"j"⟩ [] 1
    one_pos rfl rfl (fun m hm => by cases hm)

/-- Claim C7: `find_best_matching_terms` propagates a failed external call
and never swallows it — a failed mapping search propagates its error
unchanged, and the matcher returns a result only when the search and every
grounding call succeeded. -/
theorem find_best_matching_terms_error_propagation :
    (∀ (cv : String) (e : MatchingServiceError)
      (g : String → Except MatchingServiceError GroundingResponse),
      find_best_matching_terms cv (.error e) g = .error e) ∧
    (∀ (cv : String) (mr : Except MatchingServiceError Mappings)
      (g : String → Except MatchingServiceError GroundingResponse)
      (v : Option String),
      find_best_matching_terms cv mr g = .ok v →
      ∃ maps, mr = .ok maps ∧
        ∀ m ∈ maps.mappings, ∃ r, g (cv ++ " // " ++ m.object_id) = .ok r) := by
  constructor
  · intro cv e g
    rfl
  · intro cv mr g v h
    cases mr with
    | error e => rw [find_best_matching_terms, exceptBind_error] at h; cases h
    | ok maps =>
      rw [find_best_matching_terms, exceptBind_ok] at h
      exact ⟨maps, rfl, findBestLoop_ok_forall cv g maps.mappings none 0 v h⟩

theorem findBest_singleton_run :
    find_best_matching_terms "x" (.ok ⟨[⟨"i"⟩]⟩) (groundOf (fun _ => 1)) =
      .ok (some "i") := by
  simp only [find_best_matching_terms, exceptBind_ok, findBestLoop, groundOf,
    String.reduceAppend, String.reduceEq, reduceIte]
  norm_num

/-- Witness for `find_best_matching_terms_error_propagation`: its
propagation part applied to a concrete successful run with one candidate. -/
theorem find_best_matching_terms_error_propagation_witness :
    ∃ maps, (Except.ok ⟨[⟨"i"⟩]⟩ : Except MatchingServiceError Mappings) =
        .ok maps ∧
      ∀ m ∈ maps.mappings, ∃ r,
        groundOf (fun _ => (1 : ℚ)) ("x" ++ " // " ++ m.object_id) = .ok r :=
  find_best_matching_terms_error_propagation.2 "x" (.ok ⟨[⟨"i"⟩]⟩)
    (groundOf (fun _ => 1)) (some "i") findBest_singleton_run

/-! ### Helper lemmas and claim theorems about `evaluate_predictions` -/

theorem mem_dedupFirst {x : String} : ∀ {l : List String}, x ∈ dedupFirst l ↔ x ∈ l := by
  intro l
  induction l with
  | nil => simp [dedupFirst]
  | cons a t ih =>
    by_cases hxa : x = a
    · subst hxa
      simp [dedupFirst]
    · simp only [dedupFirst, List.mem_cons, List.mem_filter, decide_eq_true_eq, ih, hxa,
        false_or, ne_eq]
      tauto

theorem nodup_dedupFirst : ∀ l : List String, (dedupFirst l).Nodup := by
  intro l
  induction l with
  | nil => simp [dedupFirst]
  | cons a t ih =>
    rw [dedupFirst, List.nodup_cons]
    refine ⟨?_, ih.filter _⟩
    intro hmem
    have := (List.mem_filter.mp hmem).2
    simp at this

theorem mem_unionList {x : String} {s1 s2 : List String} :
    x ∈ unionList s1 s2 ↔ x ∈ s1 ∨ x ∈ s2 := by
  simp only [unionList, List.mem_append, List.mem_filter, decide_eq_true_eq]
  tauto

theorem nodup_unionList {s1 s2 : List String} (h1 : s1.Nodup) (h2 : s2.Nodup) :
    (unionList s1 s2).Nodup := by
  rw [unionList, List.nodup_append]
  refine ⟨h1, h2.filter _, ?_⟩
  intro a ha hmem
  have := (List.mem_filter.mp hmem).2
  simp at this
  exact this ha

theorem classify_snd (s1 s2 : List String) (x : String) :
    (classify s1 s2 x).2 = x := by
  unfold classify
  split_ifs <;> rfl

theorem classify_fst_ne_TN (s1 s2 : List String) (x : String) :
    (classify s1 s2 x).1 ≠ .TRUE_NEGATIVE := by
  unfold classify
  split_ifs <;> simp

theorem countPair_map_classify (s1 s2 : List String) (u : List String)
    (hu : u.Nodup) (o : ClassificationOutcome) (x : String) :
    countPair (u.map (classify s1 s2)) (o, x) =
      if x ∈ u ∧ classify s1 s2 x = (o, x) then 1 else 0 := by
  induction u with
  | nil => simp [countPair]
  | cons a t ih =>
    have ha : a ∉ t := (List.nodup_cons.mp hu).1
    have ht : t.Nodup := (List.nodup_cons.mp hu).2
    rw [List.map_cons]
    rw [show countPair (classify s1 s2 a :: t.map (classify s1 s2)) (o, x) =
      countPair (t.map (classify s1 s2)) (o, x) +
        (if classify s1 s2 a = (o, x) then 1 else 0) by
        simp [countPair, List.countP_cons]]
    rw [ih ht]
    by_cases hax : x = a
    · subst hax
      simp only [ha, false_and, if_false, List.mem_cons, true_or, true_and, zero_add]
    · have hne : classify s1 s2 a ≠ (o, x) := by
        intro hcl
        exact hax ((classify_snd s1 s2 a).symm.trans (congrArg Prod.snd hcl)).symm
      simp only [hne, if_false, add_zero, List.mem_cons, hax, false_or]

theorem countP_elem_of_nodup (u : List String) (hu : u.Nodup) (x : String) :
    u.countP (fun y => decide (y = x)) = if x ∈ u then 1 else 0 := by
  induction u with
  | nil => simp
  | cons a t ih =>
    have ha : a ∉ t := (List.nodup_cons.mp hu).1
    have ht : t.Nodup := (List.nodup_cons.mp hu).2
    rw [List.countP_cons, ih ht]
    by_cases hax : x = a
    · subst hax
      simp [ha]
    · simp [hax, Ne.symm hax]

theorem evalLists_countPair (xs ys : List PyObj) (o : ClassificationOutcome) (x : String) :
    countPair (evalLists xs ys) (o, x) =
      if (x ∈ xs.map _normalize ∨ x ∈ ys.map _normalize) ∧
          classify (dedupFirst (xs.map _normalize)) (dedupFirst (ys.map _normalize)) x = (o, x)
      then 1 else 0 := by
  unfold evalLists
  rw [countPair_map_classify _ _ _
    (nodup_unionList (nodup_dedupFirst _) (nodup_dedupFirst _))]
  simp only [mem_unionList, mem_dedupFirst]

theorem dedupFirst_cons_cons (a : String) (l : List String) :
    dedupFirst (a :: a :: l) = dedupFirst (a :: l) := by
  simp only [dedupFirst]
  congr 1
  simp [List.filter_cons, List.filter_filter]

/-- Claim C1, counterexample: on `([1,2,3], [2,3,4])` the element `1` does
not yield a false negative and the element `4` does not yield a false
positive — the code classifies them the other way around. -/
theorem evaluate_predictions_spec_example_refuted :
    countPair (evaluate_predictions (.plist [.pint 1, .pint 2, .pint 3])
        (.plist [.pint 2, .pint 3, .pint 4])) (.FALSE_NEGATIVE, "1") = 0 ∧
    countPair (evaluate_predictions (.plist [.pint 1, .pint 2, .pint 3])
        (.plist [.pint 2, .pint 3, .pint 4])) (.FALSE_POSITIVE, "4") = 0 := by
  constructor <;> decide

/-- Claim C1 (amended): on `([1,2,3], [2,3,4])` `evaluate_predictions`
yields exactly one false positive for `1`, true positives for `2` and `3`,
and one false negative for `4`; in general a normalized element present
only in the second argument's set yields exactly one false negative,
present only in the first argument's set exactly one false positive,
present in both exactly one true positive, and no true-negative outcome is
ever produced. -/
theorem evaluate_predictions_outcome_characterisation :
    (evaluate_predictions (.plist [.pint 1, .pint 2, .pint 3])
        (.plist [.pint 2, .pint 3, .pint 4]) =
      [(.FALSE_POSITIVE, "1"), (.TRUE_POSITIVE, "2"), (.TRUE_POSITIVE, "3"),
       (.FALSE_NEGATIVE, "4")]) ∧
    (∀ (xs ys : List PyObj) (x : String),
      x ∈ ys.map _normalize → x ∉ xs.map _normalize →
      countPair (evaluate_predictions (.plist xs) (.plist ys))
        (.FALSE_NEGATIVE, x) = 1) ∧
    (∀ (xs ys : List PyObj) (x : String),
      x ∈ xs.map _normalize → x ∉ ys.map _normalize →
      countPair (evaluate_predictions (.plist xs) (.plist ys))
        (.FALSE_POSITIVE, x) = 1) ∧
    (∀ (xs ys : List PyObj) (x : String),
      x ∈ xs.map _normalize → x ∈ ys.map _normalize →
      countPair (evaluate_predictions (.plist xs) (.plist ys))
        (.TRUE_POSITIVE, x) = 1) ∧
    (∀ (o1 o2 : PyObj) (p : ClassificationOutcome × String),
      p ∈ evaluate_predictions o1 o2 → p.1 ≠ .TRUE_NEGATIVE) := by
  have hTN : ∀ (xs ys : List PyObj) (p : ClassificationOutcome × String),
      p ∈ evalLists xs ys → p.1 ≠ .TRUE_NEGATIVE := by
    intro xs ys p hp
    unfold evalLists at hp
    obtain ⟨u, _, rfl⟩ := List.mem_map.mp hp
    exact classify_fst_ne_TN _ _ u
  refine ⟨by decide, ?_, ?_, ?_, ?_⟩
  · intro xs ys x hy hx
    have hx1 : x ∉ dedupFirst (xs.map _normalize) := fun hc => hx (mem_dedupFirst.mp hc)
    have hcl : classify (dedupFirst (xs.map _normalize))
        (dedupFirst (ys.map _normalize)) x = (.FALSE_NEGATIVE, x) := by
      unfold classify
      rw [if_pos hx1]
    show countPair (evalLists xs ys) (.FALSE_NEGATIVE, x) = 1
    rw [evalLists_countPair, if_pos ⟨Or.inr hy, hcl⟩]
  · intro xs ys x hx hy
    have hx1 : x ∈ dedupFirst (xs.map _normalize) := mem_dedupFirst.mpr hx
    have hy1 : x ∉ dedupFirst (ys.map _normalize) := fun hc => hy (mem_dedupFirst.mp hc)
    have hcl : classify (dedupFirst (xs.map _normalize))
        (dedupFirst (ys.map _normalize)) x = (.FALSE_POSITIVE, x) := by
      unfold classify
      rw [if_neg (not_not_intro hx1), if_pos hy1]
    show countPair (evalLists xs ys) (.FALSE_POSITIVE, x) = 1
    rw [evalLists_countPair, if_pos ⟨Or.inl hx, hcl⟩]
  · intro xs ys x hx hy
    have hx1 : x ∈ dedupFirst (xs.map _normalize) := mem_dedupFirst.mpr hx
    have hy1 : x ∈ dedupFirst (ys.map _normalize) := mem_dedupFirst.mpr hy
    have hcl : classify (dedupFirst (xs.map _normalize))
        (dedupFirst (ys.map _normalize)) x = (.TRUE_POSITIVE, x) := by
      unfold classify
      rw [if_neg (not_not_intro hx1), if_neg (not_not_intro hy1)]
    show countPair (evalLists xs ys) (.TRUE_POSITIVE, x) = 1
    rw [evalLists_countPair, if_pos ⟨Or.inl hx, hcl⟩]
  · intro o1 o2 p hp
    cases o1 <;> cases o2 <;> exact hTN _ _ p hp

/-- Witness for `evaluate_predictions_outcome_characterisation`: its
false-negative part applied to `([1], [2])` and the element `"2"`. -/
theorem evaluate_predictions_outcome_characterisation_witness :
    ("2" ∈ ([PyObj.pint 2].map _normalize) ∧
      "2" ∉ ([PyObj.pint 1].map _normalize)) ∧
    countPair (evaluate_predictions (.plist [.pint 1]) (.plist [.pint 2]))
      (.FALSE_NEGATIVE, "2") = 1 :=
  ⟨⟨by decide, by decide⟩,
    evaluate_predictions_outcome_characterisation.2.1 [.pint 1] [.pint 2] "2"
      (by decide) (by decide)⟩

/-- Claim C9: when exactly one argument is a list and the other a non-list
scalar, both are wrapped as singleton lists, so the whole list argument is
compared as one serialized element; `([1,2], 1)` yields one outcome for the
serialized list and one for the scalar `1`, and no true positive for the
shared element `1`. -/
theorem evaluate_predictions_scalar_wrapping :
    (∀ (xs : List PyObj) (y : PyObj), (∀ zs, y ≠ .plist zs) →
      evaluate_predictions (.plist xs) y = evalLists [.plist xs] [y]) ∧
    (∀ (x : PyObj) (ys : List PyObj), (∀ zs, x ≠ .plist zs) →
      evaluate_predictions x (.plist ys) = evalLists [x] [.plist ys]) ∧
    (evaluate_predictions (.plist [.pint 1, .pint 2]) (.pint 1) =
      [(.FALSE_POSITIVE, "- 1\n- 2\n"), (.FALSE_NEGATIVE, "1")]) ∧
    ((evaluate_predictions (.plist [.pint 1, .pint 2]) (.pint 1)).countP
      (fun p => decide (p.1 = .TRUE_POSITIVE)) = 0) := by
  refine ⟨?_, ?_, by decide, by decide⟩
  · intro xs y hy
    cases y with
    | pstr s => rfl
    | pint n => rfl
    | plist zs => exact absurd rfl (hy zs)
  · intro x ys hx
    cases x with
    | pstr s => rfl
    | pint n => rfl
    | plist zs => exact absurd rfl (hx zs)

/-- Witness for `evaluate_predictions_scalar_wrapping`: its wrapping part
applied to the list `[3]` against the scalar `7`. -/
theorem evaluate_predictions_scalar_wrapping_witness :
    evaluate_predictions (.plist [.pint 3]) (.pint 7) =
      evalLists [.plist [.pint 3]] [.pint 7] :=
  evaluate_predictions_scalar_wrapping.1 [.pint 3] (.pint 7)
    (fun _ h => PyObj.noConfusion h)

/-- Claim C10: `evaluate_predictions` is invariant under duplicating an
element of either input list, yields exactly one outcome per distinct
normalized value of the union of the two lists, and on `([1,1,2], [2])`
yields exactly one false positive and one true positive. -/
theorem evaluate_predictions_duplicate_invariant :
    (∀ (x : PyObj) (xs ys : List PyObj),
      evaluate_predictions (.plist (x :: x :: xs)) (.plist ys) =
        evaluate_predictions (.plist (x :: xs)) (.plist ys)) ∧
    (∀ (xs : List PyObj) (y : PyObj) (ys : List PyObj),
      evaluate_predictions (.plist xs) (.plist (y :: y :: ys)) =
        evaluate_predictions (.plist xs) (.plist (y :: ys))) ∧
    (∀ (xs ys : List PyObj) (x : String),
      (evaluate_predictions (.plist xs) (.plist ys)).countP
          (fun p => decide (p.2 = x)) =
        if x ∈ xs.map _normalize ∨ x ∈ ys.map _normalize then 1 else 0) ∧
    (evaluate_predictions (.plist [.pint 1, .pint 1, .pint 2]) (.plist [.pint 2]) =
      [(.FALSE_POSITIVE, "1"), (.TRUE_POSITIVE, "2")]) := by
  refine ⟨?_, ?_, ?_, by decide⟩
  · intro x xs ys
    show evalLists (x :: x :: xs) ys = evalLists (x :: xs) ys
    unfold evalLists
    rw [List.map_cons, List.map_cons, dedupFirst_cons_cons]
  · intro xs y ys
    show evalLists xs (y :: y :: ys) = evalLists xs (y :: ys)
    unfold evalLists
    rw [List.map_cons, List.map_cons, dedupFirst_cons_cons]
  · intro xs ys x
    show (evalLists xs ys).countP _ = _
    unfold evalLists
    rw [List.countP_map]
    have hc : ∀ u ∈ unionList (dedupFirst (xs.map _normalize))
        (dedupFirst (ys.map _normalize)),
        ((fun p : ClassificationOutcome × String => decide (p.2 = x)) ∘
          classify (dedupFirst (xs.map _normalize))
            (dedupFirst (ys.map _normalize))) u = true ↔
          (fun y => decide (y = x)) u = true := by
      intro u _
      simp only [Function.comp_apply, classify_snd]
    rw [List.countP_congr hc]
    rw [countP_elem_of_nodup _ (nodup_unionList (nodup_dedupFirst _) (nodup_dedupFirst _))]
    simp only [mem_unionList, mem_dedupFirst]

/-! ### Helper lemmas and claim theorems about the stratified splitter -/

theorem mem_truncateTo {r : Record} {nt : Option ℕ} {l : List Record}
    (h : r ∈ truncateTo nt l) : r ∈ l := by
  cases nt with
  | none => exact h
  | some n => exact List.mem_of_mem_take h

/-- Claim C6 (spec-modelled splitter): with `testing_identifiers = [A, B]`
the records with identifiers `A` and `B` are placed in the testing set
regardless of `num_testing`, and are excluded from the training and
validation sets. -/
theorem stratify_collection_testing_identifiers_pinned :
    ∀ (collection : List Record) (fields_to_predict : List String)
      (num_training num_testing : Option ℕ) (num_validation : ℕ)
      (q : Option ℚ) (a b : String) (sc : StratifiedCollection),
      stratify_collection collection fields_to_predict num_training num_testing
        num_validation q (some [a, b]) = .ok sc →
      ∀ r ∈ collection, r.rid = a ∨ r.rid = b →
        r ∈ sc.testing_set ∧ r ∉ sc.training_set ∧ r ∉ sc.validation_set := by
  intro collection fields_to_predict num_training num_testing num_validation
    q a b sc h r hr hrid
  simp only [stratify_collection] at h
  split at h
  · cases h
  · rw [Except.ok.injEq] at h
    subst h
    dsimp only
    have hrid' : decide (r.rid ∈ [a, b]) = true := by
      simp [List.mem_cons, hrid]
    have hnotid : ∀ s ∈ (collection.filter (hasAllFields fields_to_predict)).filter
        (fun x => decide (x.rid ∉ [a, b])), s.rid ≠ a ∧ s.rid ≠ b := by
      intro s hs
      have := (List.mem_filter.mp hs).2
      simp only [decide_eq_true_eq, List.mem_cons, List.mem_singleton, not_or] at this
      simpa using this
    have hnotid' : ∀ s ∈ (collection.filter
          (fun x => !hasAllFields fields_to_predict x)).filter
        (fun x => decide (x.rid ∉ [a, b])), s.rid ≠ a ∧ s.rid ≠ b := by
      intro s hs
      have := (List.mem_filter.mp hs).2
      simp only [decide_eq_true_eq, List.mem_cons, List.mem_singleton, not_or] at this
      simpa using this
    refine ⟨List.mem_filter.mpr ⟨hr, hrid'⟩, ?_, ?_⟩
    · intro hmem
      have hmem' := mem_truncateTo hmem
      rcases List.mem_append.mp hmem' with hmem' | hmem'
      · have := hnotid r (List.mem_of_mem_drop hmem')
        rcases hrid with hrid | hrid
        · exact this.1 hrid
        · exact this.2 hrid
      · have := hnotid' r hmem'
        rcases hrid with hrid | hrid
        · exact this.1 hrid
        · exact this.2 hrid
    · intro hmem
      have := hnotid r (List.mem_of_mem_take hmem)
      rcases hrid with hrid | hrid
      · exact this.1 hrid
      · exact this.2 hrid


theorem nodup_take_drop {l : List Record} (hl : l.Nodup) {n : ℕ} {r : Record}
    (h1 : r ∈ l.take n) (h2 : r ∈ l.drop n) : False := by
  have hsplit : l.take n ++ l.drop n = l := List.take_append_drop n l
  rw [← hsplit] at hl
  exact (List.nodup_append.mp hl).2.2 h1 h2

/-- Claim C5 (spec-modelled splitter): for every argument combination, a
successful split has training, testing and validation sets pairwise
disjoint by record identifier (assuming, per the spec's data model, unique
identifiers in the source collection), and when no `num_training` cap is
given every source record lands in one of the three sets. -/
theorem stratify_collection_disjoint_and_covering :
    ∀ (collection : List Record) (fields_to_predict : List String)
      (num_training num_testing : Option ℕ) (num_validation : ℕ)
      (q : Option ℚ) (testing_identifiers : Option (List String))
      (sc : StratifiedCollection),
      (collection.map Record.rid).Nodup →
      stratify_collection collection fields_to_predict num_training num_testing
        num_validation q testing_identifiers = .ok sc →
      ((∀ r1 ∈ sc.training_set, ∀ r2 ∈ sc.testing_set, r1.rid ≠ r2.rid) ∧
       (∀ r1 ∈ sc.training_set, ∀ r2 ∈ sc.validation_set, r1.rid ≠ r2.rid) ∧
       (∀ r1 ∈ sc.testing_set, ∀ r2 ∈ sc.validation_set, r1.rid ≠ r2.rid) ∧
       (num_training = none → ∀ r ∈ collection,
         r ∈ sc.training_set ∨ r ∈ sc.testing_set ∨ r ∈ sc.validation_set)) := by
  intro collection fields_to_predict num_training num_testing num_validation
    q tids sc hN h
  have hnd : collection.Nodup := hN.of_map
  have hinj : ∀ r1 ∈ collection, ∀ r2 ∈ collection, r1.rid = r2.rid → r1 = r2 :=
    fun r1 h1 r2 h2 heq => List.inj_on_of_nodup_map hN h1 h2 heq
  cases tids with
  | some ids =>
    simp only [stratify_collection] at h
    split at h
    · cases h
    · rw [Except.ok.injEq] at h
      subst h
      dsimp only
      have hEmem : ∀ s ∈ (collection.filter (hasAllFields fields_to_predict)).filter
          (fun x => decide (x.rid ∉ ids)),
          s ∈ collection ∧ hasAllFields fields_to_predict s = true ∧ s.rid ∉ ids := by
        intro s hs
        have h1 := List.mem_filter.mp hs
        have h2 := List.mem_filter.mp h1.1
        refine ⟨h2.1, h2.2, ?_⟩
        simpa using h1.2
      have hImem : ∀ s ∈ (collection.filter
            (fun x => !hasAllFields fields_to_predict x)).filter
          (fun x => decide (x.rid ∉ ids)),
          s ∈ collection ∧ hasAllFields fields_to_predict s = false ∧ s.rid ∉ ids := by
        intro s hs
        have h1 := List.mem_filter.mp hs
        have h2 := List.mem_filter.mp h1.1
        refine ⟨h2.1, ?_, ?_⟩
        · simpa using h2.2
        · simpa using h1.2
      have hTmem : ∀ s ∈ collection.filter (fun x => decide (x.rid ∈ ids)),
          s ∈ collection ∧ s.rid ∈ ids := by
        intro s hs
        have h1 := List.mem_filter.mp hs
        exact ⟨h1.1, by simpa using h1.2⟩
      have hEnd : ((collection.filter (hasAllFields fields_to_predict)).filter
          (fun x => decide (x.rid ∉ ids))).Nodup := (hnd.filter _).filter _
      refine ⟨?_, ?_, ?_, ?_⟩
      · intro r1 h1 r2 h2 heq
        have h2' := (hTmem r2 h2).2
        rcases List.mem_append.mp (mem_truncateTo h1) with h1' | h1'
        · exact (hEmem r1 (List.mem_of_mem_drop h1')).2.2 (heq ▸ h2')
        · exact (hImem r1 h1').2.2 (heq ▸ h2')
      · intro r1 h1 r2 h2 heq
        have hr2 := hEmem r2 (List.mem_of_mem_take h2)
        rcases List.mem_append.mp (mem_truncateTo h1) with h1' | h1'
        · have hr1 := hEmem r1 (List.mem_of_mem_drop h1')
          have : r1 = r2 := hinj r1 hr1.1 r2 hr2.1 heq
          subst this
          exact nodup_take_drop hEnd h2 h1'
        · have hr1 := hImem r1 h1'
          have : r1 = r2 := hinj r1 hr1.1 r2 hr2.1 heq
          subst this
          rw [hr1.2.1] at hr2
          exact Bool.false_ne_true hr2.2.1
      · intro r1 h1 r2 h2 heq
        have h1' := (hTmem r1 h1).2
        exact (hEmem r2 (List.mem_of_mem_take h2)).2.2 (heq ▸ h1')
      · intro hntr r hr
        subst hntr
        by_cases hid : r.rid ∈ ids
        · exact Or.inr (Or.inl (List.mem_filter.mpr ⟨hr, by simpa using hid⟩))
        · by_cases hP : hasAllFields fields_to_predict r = true
          · have hrE : r ∈ (collection.filter (hasAllFields fields_to_predict)).filter
                (fun x => decide (x.rid ∉ ids)) :=
              List.mem_filter.mpr ⟨List.mem_filter.mpr ⟨hr, hP⟩, by simpa using hid⟩
            rw [← List.take_append_drop num_validation
              ((collection.filter (hasAllFields fields_to_predict)).filter
                (fun x => decide (x.rid ∉ ids)))] at hrE
            rcases List.mem_append.mp hrE with hrE | hrE
            · exact Or.inr (Or.inr hrE)
            · exact Or.inl (List.mem_append_left _ hrE)
          · have hrI : r ∈ (collection.filter
                  (fun x => !hasAllFields fields_to_predict x)).filter
                (fun x => decide (x.rid ∉ ids)) :=
              List.mem_filter.mpr ⟨List.mem_filter.mpr ⟨hr, by
                simpa using hP⟩, by simpa using hid⟩
            exact Or.inl (List.mem_append_right _ hrI)
  | none =>
    simp only [stratify_collection] at h
    split at h
    · cases h
    · rw [Except.ok.injEq] at h
      subst h
      dsimp only
      have hEmem : ∀ s ∈ collection.filter (hasAllFields fields_to_predict),
          s ∈ collection ∧ hasAllFields fields_to_predict s = true :=
        fun s hs => List.mem_filter.mp hs
      have hImem : ∀ s ∈ collection.filter
            (fun x => !hasAllFields fields_to_predict x),
          s ∈ collection ∧ hasAllFields fields_to_predict s = false := by
        intro s hs
        have h1 := List.mem_filter.mp hs
        exact ⟨h1.1, by simpa using h1.2⟩
      have hEnd : (collection.filter (hasAllFields fields_to_predict)).Nodup :=
        hnd.filter _
      have hEdnd : ∀ k : ℕ, ((collection.filter
          (hasAllFields fields_to_predict)).drop k).Nodup :=
        fun k => (List.drop_sublist k _).nodup hEnd
      refine ⟨?_, ?_, ?_, ?_⟩
      · intro r1 h1 r2 h2 heq
        have hr2 := hEmem r2 (List.mem_of_mem_take h2)
        rcases List.mem_append.mp (mem_truncateTo h1) with h1' | h1'
        · have h1d := List.mem_of_mem_drop h1'
          have hr1 := hEmem r1 (List.mem_of_mem_drop h1d)
          have : r1 = r2 := hinj r1 hr1.1 r2 hr2.1 heq
          subst this
          exact nodup_take_drop hEnd h2 h1d
        · have hr1 := hImem r1 h1'
          have : r1 = r2 := hinj r1 hr1.1 r2 hr2.1 heq
          subst this
          rw [hr1.2] at hr2
          exact Bool.false_ne_true hr2.2
      · intro r1 h1 r2 h2 heq
        have h2d := List.mem_of_mem_take h2
        have hr2 := hEmem r2 (List.mem_of_mem_drop h2d)
        rcases List.mem_append.mp (mem_truncateTo h1) with h1' | h1'
        · have hr1 := hEmem r1 (List.mem_of_mem_drop (List.mem_of_mem_drop h1'))
          have : r1 = r2 := hinj r1 hr1.1 r2 hr2.1 heq
          subst this
          exact nodup_take_drop (hEdnd _) h2 h1'
        · have hr1 := hImem r1 h1'
          have : r1 = r2 := hinj r1 hr1.1 r2 hr2.1 heq
          subst this
          rw [hr1.2] at hr2
          exact Bool.false_ne_true hr2.2
      · intro r1 h1 r2 h2 heq
        have hr1 := hEmem r1 (List.mem_of_mem_take h1)
        have h2d := List.mem_of_mem_take h2
        have hr2 := hEmem r2 (List.mem_of_mem_drop h2d)
        have : r1 = r2 := hinj r1 hr1.1 r2 hr2.1 heq
        subst this
        exact nodup_take_drop hEnd h1 h2d
      · intro hntr r hr
        subst hntr
        by_cases hP : hasAllFields fields_to_predict r = true
        · have hrE : r ∈ collection.filter (hasAllFields fields_to_predict) :=
            List.mem_filter.mpr ⟨hr, hP⟩
          rw [← List.take_append_drop (testingCount num_testing q
              ((collection.filter (hasAllFields fields_to_predict)).length))
            (collection.filter (hasAllFields fields_to_predict))] at hrE
          rcases List.mem_append.mp hrE with hrE | hrE
          · exact Or.inr (Or.inl hrE)
          · rw [← List.take_append_drop num_validation ((collection.filter
              (hasAllFields fields_to_predict)).drop _)] at hrE
            rcases List.mem_append.mp hrE with hrE | hrE
            · exact Or.inr (Or.inr hrE)
            · exact Or.inl (List.mem_append_left _ hrE)
        · have hrI : r ∈ collection.filter
              (fun x => !hasAllFields fields_to_predict x) :=
            List.mem_filter.mpr ⟨hr, by simpa using hP⟩
          exact Or.inl (List.mem_append_right _ hrI)

/-- Witness for `stratify_collection_testing_identifiers_pinned`: a
three-record collection split with forced testing identifiers "a", "b". -/
theorem stratify_collection_testing_identifiers_pinned_witness :
    (⟨"a", ["f"]⟩ : Record) ∈
        (StratifiedCollection.mk [⟨"c", []⟩] [⟨"a", ["f"]⟩, ⟨"b", ["f"]⟩]
          []).testing_set ∧
      (⟨"a", ["f"]⟩ : Record) ∉
        (StratifiedCollection.mk [⟨"c", []⟩] [⟨"a", ["f"]⟩, ⟨"b", ["f"]⟩]
          []).training_set ∧
      (⟨"a", ["f"]⟩ : Record) ∉
        (StratifiedCollection.mk [⟨"c", []⟩] [⟨"a", ["f"]⟩, ⟨"b", ["f"]⟩]
          []).validation_set :=
  stratify_collection_testing_identifiers_pinned
    [⟨"a", ["f"]⟩, ⟨"b", ["f"]⟩, ⟨"c", []⟩] ["f"] none (some 0) 0 none "a" "b"
    ⟨[⟨"c", []⟩], [⟨"a", ["f"]⟩, ⟨"b", ["f"]⟩], []⟩ (by decide)
    ⟨"a", ["f"]⟩ (by decide) (Or.inl rfl)

/-- Witness for `stratify_collection_disjoint_and_covering`: a two-record
collection split into one testing and one training record. -/
theorem stratify_collection_disjoint_and_covering_witness :
    ((([⟨"a", ["f"]⟩, ⟨"b", ["f"]⟩] : List Record).map Record.rid).Nodup) ∧
    ((∀ r1 ∈ (StratifiedCollection.mk [⟨"b", ["f"]⟩] [⟨"a", ["f"]⟩]
          []).training_set,
        ∀ r2 ∈ (StratifiedCollection.mk [⟨"b", ["f"]⟩] [⟨"a", ["f"]⟩]
          []).testing_set, r1.rid ≠ r2.rid) ∧
     (∀ r1 ∈ (StratifiedCollection.mk [⟨"b", ["f"]⟩] [⟨"a", ["f"]⟩]
          []).training_set,
        ∀ r2 ∈ (StratifiedCollection.mk [⟨"b", ["f"]⟩] [⟨"a", ["f"]⟩]
          []).validation_set, r1.rid ≠ r2.rid) ∧
     (∀ r1 ∈ (StratifiedCollection.mk [⟨"b", ["f"]⟩] [⟨"a", ["f"]⟩]
          []).testing_set,
        ∀ r2 ∈ (StratifiedCollection.mk [⟨"b", ["f"]⟩] [⟨"a", ["f"]⟩]
          []).validation_set, r1.rid ≠ r2.rid) ∧
     ((none : Option ℕ) = none →
        ∀ r ∈ ([⟨"a", ["f"]⟩, ⟨"b", ["f"]⟩] : List Record),
          r ∈ (StratifiedCollection.mk [⟨"b", ["f"]⟩] [⟨"a", ["f"]⟩]
            []).training_set ∨
          r ∈ (StratifiedCollection.mk [⟨"b", ["f"]⟩] [⟨"a", ["f"]⟩]
            []).testing_set ∨
          r ∈ (StratifiedCollection.mk [⟨"b", ["f"]⟩] [⟨"a", ["f"]⟩]
            []).validation_set)) :=
  ⟨by decide, stratify_collection_disjoint_and_covering
    [⟨"a", ["f"]⟩, ⟨"b", ["f"]⟩] ["f"] none (some 1) 0 none none
    ⟨[⟨"b", ["f"]⟩], [⟨"a", ["f"]⟩], []⟩ (by decide) (by decide)⟩

end CurateGpt
